import Mathlib

/-!
# bit7z: the in-memory extraction facade and the callback handlers

A shallow embedding of `src/bitmemextractor.cpp` together with the handler
classes declared in `include/extractcallback.hpp`, `include/opencallback.hpp`,
`include/updatecallback.hpp` and the compressor state of
`include/bitcompressor.hpp`.

The 7-Zip engine is external: its entry points (`Open`, `GetProperty`,
`Extract`) are parameters of the model, so every theorem about the facade
quantifies over all engine behaviours.  Every call the facade makes is
recorded in a trace, which is how "never invoked" and "invoked once" are read.
-/

namespace bit7z

/-! ## Basic types -/

/-- COM result code, a signed 32-bit value. -/
abbrev HRESULT := Int

/-- Success code of the COM convention. -/
def S_OK : HRESULT := 0

/-- Generic failure code of the COM convention (0x80004005 as a signed 32-bit value). -/
def E_FAIL : HRESULT := -2147467259

/-- One byte of a buffer (`byte_t`), kept as a natural number. -/
abbrev byte_t := Nat

/-- Conversion to `UInt32` as done by `static_cast< UInt32 >`. -/
def toUInt32 (n : Int) : Nat := (n % 2 ^ 32).toNat

/-- Exception type raised by the facade; it carries one message. -/
structure BitException where
  message : String
deriving DecidableEq, Repr

/-- Property identifiers the facade asks the engine about. -/
inductive PROPID where
  | kpidSize
  | other (id : Nat)
deriving DecidableEq, Repr

/-- Value of a property: empty, or an unsigned 64-bit number. -/
inductive PROPVARIANT where
  | empty
  | ui8 (value : Nat)
deriving DecidableEq, Repr

/-- Input archive format; only its GUID is consumed by the facade. -/
structure BitInFormat where
  guid : Nat
deriving DecidableEq, Repr

/-! ## Handlers -/

/-- Modelled from the spec: the `Callback` base class (callback.hpp is not among
the sources).  It is the shared callback state of section 4.1: the password and
the message read back by `getErrorMessage`. -/
structure Callback where
  mPassword : String
  mErrorMessage : String
deriving DecidableEq, Repr

/-- Modelled from the spec: a freshly constructed shared state holds no password
and no message. -/
def Callback.new : Callback := { mPassword := "", mErrorMessage := "" }

/-- Handler of the open protocol (`OpenCallback`, opencallback.hpp): no members
beyond the `Callback` base. -/
structure OpenCallback extends Callback
deriving DecidableEq, Repr

/-- Modelled from the spec: the constructor `OpenCallback()` (opencallback.cpp is
not among the sources) yields a handler with a fresh shared state. -/
def OpenCallback.new : OpenCallback := { toCallback := Callback.new }

/-- Modelled from the spec: `Callback::setPassword` on the open handler stores the
password it is given. -/
def OpenCallback.setPassword (cb : OpenCallback) (password : String) : OpenCallback :=
  { cb with mPassword := password }

/-- Member `mProcessedFileInfo` of `ExtractCallback`. -/
structure CProcessedFileInfo where
  MTime : Nat
  Attrib : Nat
  isDir : Bool
  AttribDefined : Bool
  MTimeDefined : Bool
deriving DecidableEq, Repr

/-- Handler of the extract protocol (`ExtractCallback`, extractcallback.hpp), with
the members the header declares after the archive pointer; `mOutFileStream` is
kept as the flag "a stream is open" and `mNumErrors` is an unsigned 64-bit
counter.  The last field is modelled from the spec: the header declares no
member for the diagnostic list of section 4.3 (entry path and code of every
failed entry), to which the result phase appends. -/
structure ExtractCallback extends Callback where
  mDirectoryPath : String
  mFilePath : String
  mDiskFilePath : String
  mExtractMode : Bool
  mProcessedFileInfo : CProcessedFileInfo
  mOutFileStream : Bool
  mNumErrors : Nat
  mFailures : List (String × Int)
deriving DecidableEq, Repr

/-- Modelled from the spec: the constructor
`ExtractCallback( archiveHandler, directoryPath )` (extractcallback.cpp is not
among the sources) binds the output directory; the error count starts at zero,
no failure is recorded and no stream is open. -/
def ExtractCallback.new (directoryPath : String) : ExtractCallback :=
  { toCallback := Callback.new
    mDirectoryPath := directoryPath
    mFilePath := ""
    mDiskFilePath := ""
    mExtractMode := true
    mProcessedFileInfo :=
      { MTime := 0, Attrib := 0, isDir := false, AttribDefined := false, MTimeDefined := false }
    mOutFileStream := false
    mNumErrors := 0
    mFailures := [] }

/-- Modelled from the spec: `Callback::setPassword` on the extract handler stores
the password it is given. -/
def ExtractCallback.setPassword (cb : ExtractCallback) (password : String) : ExtractCallback :=
  { cb with mPassword := password }

/-- Modelled from the spec: the in-memory extract handler (`MemExtractCallback`,
memextractcallback.hpp is not among the sources).  It is the `Callback` base
plus the buffer sink it was constructed on (the caller-side `out_buffer`,
held by reference). -/
structure MemExtractCallback extends Callback where
  mBuffer : List byte_t
deriving DecidableEq, Repr

/-- Modelled from the spec: the constructor
`MemExtractCallback( archiveHandler, out_buffer )` binds the buffer it is given
as the sink. -/
def MemExtractCallback.new (out_buffer : List byte_t) : MemExtractCallback :=
  { toCallback := Callback.new, mBuffer := out_buffer }

/-- Modelled from the spec: `Callback::setPassword` on the in-memory extract
handler stores the password it is given. -/
def MemExtractCallback.setPassword (cb : MemExtractCallback) (password : String) :
    MemExtractCallback :=
  { cb with mPassword := password }

/-- The two handler classes the facade hands to `Extract` through the
`IArchiveExtractCallback` interface. -/
inductive HandlerClass where
  | extractCallback
  | memExtractCallback
deriving DecidableEq, Repr

/-- State of a handler object of the given class. -/
def HandlerClass.State : HandlerClass → Type
  | .extractCallback => ExtractCallback
  | .memExtractCallback => MemExtractCallback

/-- The `Callback` base of a handler object. -/
def HandlerClass.base : (κ : HandlerClass) → κ.State → Callback
  | .extractCallback, cb => cb.toCallback
  | .memExtractCallback, cb => cb.toCallback

/-- Modelled from the spec: `Callback::getErrorMessage` returns the message the
handler accumulated. -/
def HandlerClass.getErrorMessage (κ : HandlerClass) (cb : κ.State) : String :=
  (κ.base cb).mErrorMessage

/-! ## The engine -/

/-- The archive class of the engine (`IInArchive`).  `σ` is the state of an
archive object.  `Open` reads the stream and may change the object; `Extract`
drives the handler it is given and hands back its return code together with the
handler as the run left it. -/
structure IInArchive (σ : Type) where
  Open : σ → List byte_t → Option Nat → OpenCallback → HRESULT × σ
  GetProperty : σ → Nat → PROPID → HRESULT × PROPVARIANT
  Extract : σ → Option (List Nat) → Nat → Bool → (κ : HandlerClass) → κ.State →
    HRESULT × κ.State

/-- The 7-Zip library handle (`Bit7zLibrary`): it creates archive objects of the
engine, or raises when it cannot. -/
structure Bit7zLibrary (σ : Type) where
  archive : IInArchive σ
  createArchiveObject : Nat → Except BitException σ

/-! ## Trace of the facade -/

/-- One step of the facade that is visible from outside: a call into the engine
or the construction of a handler. -/
inductive Event where
  | createArchiveObject (formatGUID : Nat)
  | newOpenCallback
  | Open (stream : List byte_t) (maxCheckStartPosition : Option Nat) (cb : OpenCallback)
  | newExtractCallback (directoryPath : String)
  | newMemExtractCallback (out_buffer : List byte_t)
  | GetProperty (index : Nat) (propID : PROPID)
  | Extract (indices : Option (List Nat)) (numItems : Nat) (testMode : Bool)
      (κ : HandlerClass) (cb : κ.State)

/-- Result of running a facade function: what it returned or raised, and the
steps it took. -/
structure Run (α : Type) where
  result : Except BitException α
  trace : List Event

/-- Whether the run raised an exception. -/
def Run.raises {α : Type} (r : Run α) : Bool :=
  match r.result with
  | .error _ => true
  | .ok _ => false

/-- An `Extract` call of the trace. -/
def Event.isExtract : Event → Bool
  | .Extract _ _ _ _ _ => true
  | _ => false

/-- The construction of an extract handler (of either class). -/
def Event.isNewExtractHandler : Event → Bool
  | .newExtractCallback _ => true
  | .newMemExtractCallback _ => true
  | _ => false

/-- Selection arguments of an `Extract` call: index list, item count, test flag. -/
def Event.extractArgs : Event → Option (Option (List Nat) × Nat × Bool)
  | .Extract indices numItems testMode _ _ => some (indices, numItems, testMode)
  | _ => none

/-- Password held by the open handler of an `Open` call. -/
def Event.openPassword : Event → Option String
  | .Open _ _ cb => some cb.mPassword
  | _ => none

/-- Password held by the extract handler of an `Extract` call. -/
def Event.extractPassword : Event → Option String
  | .Extract _ _ _ κ cb => some (κ.base cb).mPassword
  | _ => none

/-! ## bitmemextractor.cpp -/

/-- Function `openArchive` (bitmemextractor.cpp, lines 17-35). -/
def openArchive {σ : Type} (lib : Bit7zLibrary σ) (format : BitInFormat)
    (in_buffer : List byte_t) (password : String) : Run σ :=
  let formatGUID := format.guid
  match lib.createArchiveObject formatGUID with
  | .error e => { result := .error e, trace := [.createArchiveObject formatGUID] }
  | .ok inArchive =>
    let bufStream := in_buffer
    let openCallbackSpec := OpenCallback.new.setPassword password
    let opened := lib.archive.Open inArchive bufStream none openCallbackSpec
    let trace : List Event :=
      [.createArchiveObject formatGUID, .newOpenCallback, .Open bufStream none openCallbackSpec]
    if opened.1 ≠ S_OK then
      { result := .error { message := "Cannot open archive buffer" }, trace := trace }
    else
      { result := .ok opened.2, trace := trace }

/-- Class `BitMemExtractor`: the library, the format and the password. -/
structure BitMemExtractor (σ : Type) where
  mLibrary : Bit7zLibrary σ
  mFormat : BitInFormat
  mPassword : String

/-- Constructor `BitMemExtractor( lib, format )` (lines 37-40). -/
def BitMemExtractor.new {σ : Type} (lib : Bit7zLibrary σ) (format : BitInFormat) :
    BitMemExtractor σ :=
  { mLibrary := lib, mFormat := format, mPassword := "" }

/-- Overload `BitMemExtractor::extract( in_buffer, out_dir )` (lines 46-56). -/
def BitMemExtractor.extract {σ : Type} (self : BitMemExtractor σ)
    (in_buffer : List byte_t) (out_dir : String) : Run Unit :=
  let o := openArchive self.mLibrary self.mFormat in_buffer self.mPassword
  match o.result with
  | .error e => { result := .error e, trace := o.trace }
  | .ok inArchive =>
    let extractCallbackSpec := (ExtractCallback.new out_dir).setPassword self.mPassword
    let numItems := toUInt32 (-1)
    let r := self.mLibrary.archive.Extract inArchive none numItems false
      .extractCallback extractCallbackSpec
    let trace := o.trace ++
      [.newExtractCallback out_dir,
       .Extract none numItems false .extractCallback extractCallbackSpec]
    if r.1 ≠ S_OK then
      { result := .error { message := HandlerClass.getErrorMessage .extractCallback r.2 },
        trace := trace }
    else
      { result := .ok (), trace := trace }

/-- Overload `BitMemExtractor::extract( in_buffer, out_buffer, index )`
(lines 58-74).  The second component is `out_buffer` as the call leaves it. -/
def BitMemExtractor.extractToBuffer {σ : Type} (self : BitMemExtractor σ)
    (in_buffer : List byte_t) (out_buffer : List byte_t) (index : Nat) :
    Run Unit × List byte_t :=
  let o := openArchive self.mLibrary self.mFormat in_buffer self.mPassword
  match o.result with
  | .error e => ({ result := .error e, trace := o.trace }, out_buffer)
  | .ok inArchive =>
    let _prop := (self.mLibrary.archive.GetProperty inArchive index .kpidSize).2
    let extractCallbackSpec := (MemExtractCallback.new out_buffer).setPassword self.mPassword
    let indices := [index]
    let r := self.mLibrary.archive.Extract inArchive (some indices) 1 false
      .memExtractCallback extractCallbackSpec
    let trace := o.trace ++
      [.GetProperty index .kpidSize, .newMemExtractCallback out_buffer,
       .Extract (some indices) 1 false .memExtractCallback extractCallbackSpec]
    let written : MemExtractCallback := r.2
    if r.1 ≠ S_OK then
      ({ result := .error { message := HandlerClass.getErrorMessage .memExtractCallback r.2 },
         trace := trace }, written.mBuffer)
    else
      ({ result := .ok (), trace := trace }, written.mBuffer)

/-! ## Result phase of the extract protocol -/

/-- Completion code "success" of a per-entry result report. -/
def kOK : Int := 0

/-- One per-entry result the engine delivers: the entry it named in the request
phase and the completion code of the result phase. -/
structure EntryReport where
  path : String
  code : Int
deriving DecidableEq, Repr

/-- Modelled from the spec: the bookkeeping of `ExtractCallback::GetStream`
(extractcallback.cpp is not among the sources), section 4.3 step 1: the handler
resolves the entry path against the output root and holds the stream of the
entry until the result is reported. -/
def ExtractCallback.GetStream (cb : ExtractCallback) (path : String) : ExtractCallback :=
  { cb with
    mFilePath := path
    mDiskFilePath := cb.mDirectoryPath ++ path
    mOutFileStream := true }

/-- Modelled from the spec: `ExtractCallback::SetOperationResult`
(extractcallback.cpp is not among the sources), section 4.3 step 3: the output
stream is closed if open; on any non-success code the error counter (an
unsigned 64-bit member) is incremented and a record naming the entry path and
the code is appended; no other action is taken and the handler reports success
to the engine, which proceeds to the next entry. -/
def ExtractCallback.SetOperationResult (cb : ExtractCallback) (resultEOperationResult : Int) :
    HRESULT × ExtractCallback :=
  let closed := { cb with mOutFileStream := false }
  if resultEOperationResult = kOK then
    (S_OK, closed)
  else
    (S_OK, { closed with
      mNumErrors := (cb.mNumErrors + 1) % 2 ^ 64
      mFailures := cb.mFailures ++ [(cb.mFilePath, resultEOperationResult)] })

/-- Modelled from the spec: the engine delivering a sequence of per-entry
results (section 5): a failure returned by the handler is fatal and ends the
run with that code, otherwise the next entry follows and the run ends with
`S_OK`.  The result is the code of the run, the handler as the run left it and
the number of reports the handler received. -/
def deliverReports : ExtractCallback → List EntryReport → HRESULT × ExtractCallback × Nat
  | cb, [] => (S_OK, cb, 0)
  | cb, r :: rest =>
    let step := (cb.GetStream r.path).SetOperationResult r.code
    if step.1 ≠ S_OK then (step.1, step.2, 1)
    else
      let tail := deliverReports step.2 rest
      (tail.1, tail.2.1, tail.2.2 + 1)

/-- The reports whose completion code is not success. -/
def failedReports (reports : List EntryReport) : List EntryReport :=
  reports.filter (fun r => decide (r.code ≠ kOK))

/-! ## Volume sizes of the update protocol -/

/-- Handler of the update protocol (`UpdateCallback`, updatecallback.hpp), with
the members the header declares; the entry list is kept as the entry paths. -/
structure UpdateCallback extends Callback where
  mFailedFiles : List String
  mVolumesSizes : List Nat
  mVolName : String
  mVolExt : String
  mDirPrefix : String
  mDirItems : List String
  mAskPassword : Bool
  mNeedBeClosed : Bool
  mFailedCodes : List HRESULT
deriving DecidableEq, Repr

/-- Modelled from the spec: `UpdateCallback::GetVolumeSize` (updatecallback.cpp is
not among the sources), section 4.4 "Volume boundary": with no configured
sequence there is no size; otherwise the sizes are taken in order, one per
volume, so volume `index` gets the element left after `index` elements were
used up, and the last element once the sequence is exhausted.  The handler is
handed back as it was. -/
def UpdateCallback.GetVolumeSize (cb : UpdateCallback) (index : Nat) :
    Option Nat × UpdateCallback :=
  match (cb.mVolumesSizes.drop index).head? with
  | some size => (some size, cb)
  | none => (cb.mVolumesSizes.getLast?, cb)

/-- Modelled from the spec: the splitting of the output into volumes (section 3,
"Volume Descriptor"): the size reported for a volume is its maximum; the volume
is closed and the next one opened when the bytes written reach that maximum;
with no size there is one unbounded volume.  The result lists the volume sizes
in order.  `fuel` bounds the number of volumes. -/
def splitVolumes (cb : UpdateCallback) : Nat → Nat → Nat → List Nat
  | 0, _, _ => []
  | fuel + 1, index, remaining =>
    if remaining = 0 then []
    else
      match (cb.GetVolumeSize index).1 with
      | none => [remaining]
      | some size =>
        let written := min size remaining
        written :: splitVolumes cb fuel (index + 1) (remaining - written)

/-- An update handler on no entries with the given volume sizes. -/
def UpdateCallback.withVolumes (sizes : List Nat) : UpdateCallback :=
  { toCallback := Callback.new
    mFailedFiles := []
    mVolumesSizes := sizes
    mVolName := ""
    mVolExt := ""
    mDirPrefix := ""
    mDirItems := []
    mAskPassword := false
    mNeedBeClosed := false
    mFailedCodes := [] }

/-! ## Password state of the compressor -/

/-- Private state of `BitCompressor` (bitcompressor.hpp, lines 153-158); the
library reference carries no state of its own and is left out, the format is
kept as its GUID and the compression level as its enumeration value. -/
structure BitCompressor where
  mFormat : Nat
  mCompressionLevel : Nat
  mPassword : String
  mCryptHeaders : Bool
  mSolidMode : Bool
deriving DecidableEq, Repr

/-- Modelled from the spec: the constructor `BitCompressor( lib, format )`
(bitcompressor.cpp is not among the sources): a compressor on which no setter
was called has the empty password, headers not encrypted, the given level and
no solid mode. -/
def BitCompressor.new (format : Nat) (level : Nat) : BitCompressor :=
  { mFormat := format, mCompressionLevel := level, mPassword := "",
    mCryptHeaders := false, mSolidMode := false }

/-- Modelled from the spec: `BitCompressor::setPassword( password, crypt_headers )`
(bitcompressor.cpp is not among the sources).  Following the documentation of
the declaration (bitcompressor.hpp, lines 46-69), `password` is the password
desired and `crypt_headers` says whether the headers will be encrypted; each is
stored in the private member declared for it. -/
def BitCompressor.setPassword (c : BitCompressor) (password : String) (crypt_headers : Bool) :
    BitCompressor :=
  { c with mPassword := password, mCryptHeaders := crypt_headers }

/-- An engine with a fixed behaviour: `Open` returns `openCode`, the size
property of every entry is `size`, and `Extract` leaves `message` in the
handler, appends `written` to an in-memory sink and returns `extractCode`. -/
def fixedArchive (openCode extractCode : HRESULT) (size : PROPVARIANT)
    (written : List byte_t) (message : String) : IInArchive Unit :=
  { Open := fun st _ _ _ => (openCode, st)
    GetProperty := fun _ _ propID =>
      match propID with
      | .kpidSize => (S_OK, size)
      | .other _ => (S_OK, .empty)
    Extract := fun _ _ _ _ κ cb =>
      match κ, cb with
      | .extractCallback, cb => (extractCode, { cb with mErrorMessage := message })
      | .memExtractCallback, cb =>
        (extractCode, { cb with mErrorMessage := message, mBuffer := cb.mBuffer ++ written }) }

/-- A library whose archive objects behave as `fixedArchive`. -/
def fixedLibrary (openCode extractCode : HRESULT) (size : PROPVARIANT)
    (written : List byte_t) (message : String) : Bit7zLibrary Unit :=
  { archive := fixedArchive openCode extractCode size written message
    createArchiveObject := fun _ => .ok () }

/-- An extractor on `fixedLibrary` with the given password. -/
def fixedExtractor (openCode extractCode : HRESULT) (size : PROPVARIANT)
    (written : List byte_t) (message : String) (password : String) : BitMemExtractor Unit :=
  { mLibrary := fixedLibrary openCode extractCode size written message
    mFormat := { guid := 7 }
    mPassword := password }

/-- An engine run that follows the result-phase protocol: `Extract` on a
directory handler delivers `reports` to it and returns the code of that run;
an in-memory handler is left untouched. -/
def reportingArchive (reports : List EntryReport) : IInArchive Unit :=
  { Open := fun st _ _ _ => (S_OK, st)
    GetProperty := fun _ _ _ => (S_OK, .empty)
    Extract := fun _ _ _ _ κ cb =>
      match κ, cb with
      | .extractCallback, cb =>
        let run := deliverReports cb reports
        (run.1, run.2.1)
      | .memExtractCallback, cb => (S_OK, cb) }

/-- An extractor with no password on `reportingArchive`. -/
def reportingExtractor (reports : List EntryReport) : BitMemExtractor Unit :=
  { mLibrary := { archive := reportingArchive reports, createArchiveObject := fun _ => .ok () }
    mFormat := { guid := 7 }
    mPassword := "" }

/-! ## Facts about `openArchive` shared by the facade theorems -/

theorem openArchive_of_create_error {σ : Type} (lib : Bit7zLibrary σ) (format : BitInFormat)
    (in_buffer : List byte_t) (password : String) (e : BitException)
    (hc : lib.createArchiveObject format.guid = .error e) :
    openArchive lib format in_buffer password =
      { result := .error e, trace := [.createArchiveObject format.guid] } := by
  simp [openArchive, hc]

theorem openArchive_of_open_fail {σ : Type} (lib : Bit7zLibrary σ) (format : BitInFormat)
    (in_buffer : List byte_t) (password : String) (obj : σ)
    (hc : lib.createArchiveObject format.guid = .ok obj)
    (ho : (lib.archive.Open obj in_buffer none (OpenCallback.new.setPassword password)).1 ≠ S_OK) :
    openArchive lib format in_buffer password =
      { result := .error { message := "Cannot open archive buffer" },
        trace := [.createArchiveObject format.guid, .newOpenCallback,
          .Open in_buffer none (OpenCallback.new.setPassword password)] } := by
  simp [openArchive, hc, ho]

theorem openArchive_of_open_ok {σ : Type} (lib : Bit7zLibrary σ) (format : BitInFormat)
    (in_buffer : List byte_t) (password : String) (obj : σ)
    (hc : lib.createArchiveObject format.guid = .ok obj)
    (ho : (lib.archive.Open obj in_buffer none (OpenCallback.new.setPassword password)).1 = S_OK) :
    openArchive lib format in_buffer password =
      { result := .ok (lib.archive.Open obj in_buffer none (OpenCallback.new.setPassword password)).2,
        trace := [.createArchiveObject format.guid, .newOpenCallback,
          .Open in_buffer none (OpenCallback.new.setPassword password)] } := by
  simp [openArchive, hc, ho]

theorem openArchive_trace_ok {σ : Type} (lib : Bit7zLibrary σ) (format : BitInFormat)
    (in_buffer : List byte_t) (password : String) (inArchive : σ)
    (h : (openArchive lib format in_buffer password).result = .ok inArchive) :
    (openArchive lib format in_buffer password).trace =
      [.createArchiveObject format.guid, .newOpenCallback,
       .Open in_buffer none (OpenCallback.new.setPassword password)] := by
  cases hc : lib.createArchiveObject format.guid with
  | error e => rw [openArchive_of_create_error lib format in_buffer password e hc] at h; simp at h
  | ok obj =>
    by_cases ho : (lib.archive.Open obj in_buffer none (OpenCallback.new.setPassword password)).1
        = S_OK
    · rw [openArchive_of_open_ok lib format in_buffer password obj hc ho]
    · rw [openArchive_of_open_fail lib format in_buffer password obj hc ho]

theorem openArchive_trace_cases {σ : Type} (lib : Bit7zLibrary σ) (format : BitInFormat)
    (in_buffer : List byte_t) (password : String) :
    (openArchive lib format in_buffer password).trace = [.createArchiveObject format.guid] ∨
    (openArchive lib format in_buffer password).trace =
      [.createArchiveObject format.guid, .newOpenCallback,
       .Open in_buffer none (OpenCallback.new.setPassword password)] := by
  cases hc : lib.createArchiveObject format.guid with
  | error e => rw [openArchive_of_create_error lib format in_buffer password e hc]; simp
  | ok obj =>
    by_cases ho : (lib.archive.Open obj in_buffer none (OpenCallback.new.setPassword password)).1
        = S_OK
    · rw [openArchive_of_open_ok lib format in_buffer password obj hc ho]; simp
    · rw [openArchive_of_open_fail lib format in_buffer password obj hc ho]; simp

theorem extract_of_open_error {σ : Type} (self : BitMemExtractor σ) (in_buffer : List byte_t)
    (out_dir : String) (e : BitException)
    (h : (openArchive self.mLibrary self.mFormat in_buffer self.mPassword).result = .error e) :
    self.extract in_buffer out_dir =
      { result := .error e,
        trace := (openArchive self.mLibrary self.mFormat in_buffer self.mPassword).trace } := by
  unfold BitMemExtractor.extract
  simp [h]

theorem extract_of_open_ok {σ : Type} (self : BitMemExtractor σ) (in_buffer : List byte_t)
    (out_dir : String) (inArchive : σ)
    (h : (openArchive self.mLibrary self.mFormat in_buffer self.mPassword).result = .ok inArchive) :
    self.extract in_buffer out_dir =
      { result :=
          if (self.mLibrary.archive.Extract inArchive none (toUInt32 (-1)) false .extractCallback
              ((ExtractCallback.new out_dir).setPassword self.mPassword)).1 ≠ S_OK then
            .error {
              message := HandlerClass.getErrorMessage .extractCallback
                (self.mLibrary.archive.Extract inArchive none (toUInt32 (-1)) false
                  .extractCallback ((ExtractCallback.new out_dir).setPassword self.mPassword)).2 }
          else .ok (),
        trace := (openArchive self.mLibrary self.mFormat in_buffer self.mPassword).trace ++
          [.newExtractCallback out_dir,
           .Extract none (toUInt32 (-1)) false .extractCallback
             ((ExtractCallback.new out_dir).setPassword self.mPassword)] } := by
  unfold BitMemExtractor.extract
  simp only [h]
  split <;> rfl

theorem extractToBuffer_of_open_error {σ : Type} (self : BitMemExtractor σ)
    (in_buffer out_buffer : List byte_t) (index : Nat) (e : BitException)
    (h : (openArchive self.mLibrary self.mFormat in_buffer self.mPassword).result = .error e) :
    self.extractToBuffer in_buffer out_buffer index =
      ({ result := .error e,
         trace := (openArchive self.mLibrary self.mFormat in_buffer self.mPassword).trace },
       out_buffer) := by
  unfold BitMemExtractor.extractToBuffer
  simp [h]

theorem extractToBuffer_of_open_ok {σ : Type} (self : BitMemExtractor σ)
    (in_buffer out_buffer : List byte_t) (index : Nat) (inArchive : σ)
    (h : (openArchive self.mLibrary self.mFormat in_buffer self.mPassword).result = .ok inArchive) :
    self.extractToBuffer in_buffer out_buffer index =
      ({ result :=
           if (self.mLibrary.archive.Extract inArchive (some [index]) 1 false .memExtractCallback
               ((MemExtractCallback.new out_buffer).setPassword self.mPassword)).1 ≠ S_OK then
             .error {
               message := HandlerClass.getErrorMessage .memExtractCallback
                 (self.mLibrary.archive.Extract inArchive (some [index]) 1 false
                   .memExtractCallback
                   ((MemExtractCallback.new out_buffer).setPassword self.mPassword)).2 }
           else .ok (),
         trace := (openArchive self.mLibrary self.mFormat in_buffer self.mPassword).trace ++
           [.GetProperty index .kpidSize, .newMemExtractCallback out_buffer,
            .Extract (some [index]) 1 false .memExtractCallback
              ((MemExtractCallback.new out_buffer).setPassword self.mPassword)] },
       MemExtractCallback.mBuffer
         (self.mLibrary.archive.Extract inArchive (some [index]) 1 false .memExtractCallback
           ((MemExtractCallback.new out_buffer).setPassword self.mPassword)).2) := by
  unfold BitMemExtractor.extractToBuffer
  simp only [h]
  split <;> rfl

theorem toUInt32_neg_one : toUInt32 (-1) = 4294967295 := by decide

/-! ## The facade: raising and the return code of `Extract` -/

/-- C1: when opening succeeds, each overload of `BitMemExtractor::extract` raises
exactly when the `Extract` entry point of the engine returns a code other than
`S_OK`; the exception then carries the message `getErrorMessage()` of the extract
handler as the engine left it, and with `S_OK` the call returns normally. -/
theorem extract_raises_iff_Extract_not_ok {σ : Type} (self : BitMemExtractor σ)
    (in_buffer out_buffer : List byte_t) (out_dir : String) (index : Nat) (inArchive : σ)
    (hopen : (openArchive self.mLibrary self.mFormat in_buffer self.mPassword).result
      = .ok inArchive) :
    let toDir := self.mLibrary.archive.Extract inArchive none (toUInt32 (-1)) false
      .extractCallback ((ExtractCallback.new out_dir).setPassword self.mPassword)
    let toBuf := self.mLibrary.archive.Extract inArchive (some [index]) 1 false
      .memExtractCallback ((MemExtractCallback.new out_buffer).setPassword self.mPassword)
    (((self.extract in_buffer out_dir).raises = true ↔ toDir.1 ≠ S_OK) ∧
      (toDir.1 ≠ S_OK → (self.extract in_buffer out_dir).result =
        .error { message := HandlerClass.getErrorMessage .extractCallback toDir.2 }) ∧
      (toDir.1 = S_OK → (self.extract in_buffer out_dir).result = .ok ())) ∧
    (((self.extractToBuffer in_buffer out_buffer index).1.raises = true ↔ toBuf.1 ≠ S_OK) ∧
      (toBuf.1 ≠ S_OK → (self.extractToBuffer in_buffer out_buffer index).1.result =
        .error { message := HandlerClass.getErrorMessage .memExtractCallback toBuf.2 }) ∧
      (toBuf.1 = S_OK → (self.extractToBuffer in_buffer out_buffer index).1.result = .ok ())) := by
  intro toDir toBuf
  rw [extract_of_open_ok self in_buffer out_dir inArchive hopen,
    extractToBuffer_of_open_ok self in_buffer out_buffer index inArchive hopen]
  refine ⟨⟨?_, ?_, ?_⟩, ⟨?_, ?_, ?_⟩⟩
  · by_cases h : toDir.1 = S_OK
    · simp only [toDir] at h; simp [Run.raises, toDir, h]
    · simp only [toDir] at h; simp [Run.raises, toDir, h]
  · intro h; simp only [toDir] at h; simp [toDir, h]
  · intro h; simp only [toDir] at h; simp [toDir, h]
  · by_cases h : toBuf.1 = S_OK
    · simp only [toBuf] at h; simp [Run.raises, toBuf, h]
    · simp only [toBuf] at h; simp [Run.raises, toBuf, h]
  · intro h; simp only [toBuf] at h; simp [toBuf, h]
  · intro h; simp only [toBuf] at h; simp [toBuf, h]

/-- Witness for C1: an engine that opens the buffer and whose `Extract` returns
`E_FAIL` after leaving the message "CRC failed" in the handler makes
`extract( in_buffer, out_dir )` raise that message. -/
theorem extract_raises_iff_Extract_not_ok_witness :
    (openArchive (fixedLibrary S_OK E_FAIL (.ui8 3) [1, 2, 3] "CRC failed") { guid := 7 }
        [80, 75] "pw").result = .ok () ∧
    ((fixedExtractor S_OK E_FAIL (.ui8 3) [1, 2, 3] "CRC failed" "pw").extract [80, 75]
        "out").result = .error { message := "CRC failed" } :=
  ⟨rfl,
   (extract_raises_iff_Extract_not_ok
      (fixedExtractor S_OK E_FAIL (.ui8 3) [1, 2, 3] "CRC failed" "pw")
      [80, 75] [] "out" 0 () rfl).1.2.1 (by decide)⟩

/-- C3: once the library has created the archive object, a return code of `Open`
other than `S_OK` makes `openArchive`, and with it each overload of
`BitMemExtractor::extract`, raise the one exception "Cannot open archive
buffer"; the run then constructs no extract handler and never calls `Extract`.
When `Open` returns `S_OK`, `openArchive` raises nothing and returns the opened
archive object. -/
theorem openArchive_raises_when_Open_fails {σ : Type} (self : BitMemExtractor σ)
    (in_buffer out_buffer : List byte_t) (out_dir : String) (index : Nat) (obj : σ)
    (hcreate : self.mLibrary.createArchiveObject self.mFormat.guid = .ok obj) :
    let opened := self.mLibrary.archive.Open obj in_buffer none
      (OpenCallback.new.setPassword self.mPassword)
    (opened.1 ≠ S_OK →
      (openArchive self.mLibrary self.mFormat in_buffer self.mPassword).result
        = .error { message := "Cannot open archive buffer" } ∧
      (self.extract in_buffer out_dir).result
        = .error { message := "Cannot open archive buffer" } ∧
      (self.extractToBuffer in_buffer out_buffer index).1.result
        = .error { message := "Cannot open archive buffer" } ∧
      (∀ ev ∈ (self.extract in_buffer out_dir).trace,
        ev.isNewExtractHandler = false ∧ ev.isExtract = false) ∧
      (∀ ev ∈ (self.extractToBuffer in_buffer out_buffer index).1.trace,
        ev.isNewExtractHandler = false ∧ ev.isExtract = false)) ∧
    (opened.1 = S_OK →
      (openArchive self.mLibrary self.mFormat in_buffer self.mPassword).result
        = .ok opened.2) := by
  intro opened
  constructor
  · intro ho
    have h := openArchive_of_open_fail self.mLibrary self.mFormat in_buffer self.mPassword obj
      hcreate ho
    have hr : (openArchive self.mLibrary self.mFormat in_buffer self.mPassword).result
        = .error { message := "Cannot open archive buffer" } := by rw [h]
    rw [extract_of_open_error self in_buffer out_dir _ hr,
      extractToBuffer_of_open_error self in_buffer out_buffer index _ hr, h]
    simp [Event.isNewExtractHandler, Event.isExtract]
  · intro ho
    rw [openArchive_of_open_ok self.mLibrary self.mFormat in_buffer self.mPassword obj hcreate ho]

/-- Witness for C3: with an engine whose `Open` returns `E_FAIL`, the facade
raises "Cannot open archive buffer". -/
theorem openArchive_raises_when_Open_fails_witness :
    ((fixedExtractor E_FAIL S_OK (.ui8 3) [1, 2, 3] "" "pw").extract [80, 75] "out").result
      = .error { message := "Cannot open archive buffer" } :=
  ((openArchive_raises_when_Open_fails (fixedExtractor E_FAIL S_OK (.ui8 3) [1, 2, 3] "" "pw")
      [80, 75] [] "out" 0 () rfl).1 (by decide)).2.1

/-- C9: in every call of `BitMemExtractor::extract` (either overload) the open
handler given to `Open` and the extract handler given to `Extract` hold exactly
the password `mPassword` of the extractor, unchanged and unchecked, also when it
is empty; when opening succeeds both calls are made, each once; a freshly
constructed `BitMemExtractor` has the empty password. -/
theorem handlers_carry_configured_password {σ : Type} (self : BitMemExtractor σ)
    (in_buffer out_buffer : List byte_t) (out_dir : String) (index : Nat) :
    let toDir := (self.extract in_buffer out_dir).trace
    let toBuf := (self.extractToBuffer in_buffer out_buffer index).1.trace
    (∀ p ∈ toDir.filterMap Event.openPassword, p = self.mPassword) ∧
    (∀ p ∈ toDir.filterMap Event.extractPassword, p = self.mPassword) ∧
    (∀ p ∈ toBuf.filterMap Event.openPassword, p = self.mPassword) ∧
    (∀ p ∈ toBuf.filterMap Event.extractPassword, p = self.mPassword) ∧
    (∀ inArchive,
      (openArchive self.mLibrary self.mFormat in_buffer self.mPassword).result = .ok inArchive →
        toDir.filterMap Event.openPassword = [self.mPassword] ∧
        toDir.filterMap Event.extractPassword = [self.mPassword] ∧
        toBuf.filterMap Event.openPassword = [self.mPassword] ∧
        toBuf.filterMap Event.extractPassword = [self.mPassword]) ∧
    (BitMemExtractor.new self.mLibrary self.mFormat).mPassword = "" := by
  intro toDir toBuf
  have hpw : (OpenCallback.new.setPassword self.mPassword).mPassword = self.mPassword := rfl
  have hpe : (HandlerClass.base .extractCallback
      ((ExtractCallback.new out_dir).setPassword self.mPassword)).mPassword
      = self.mPassword := rfl
  have hpm : (HandlerClass.base .memExtractCallback
      ((MemExtractCallback.new out_buffer).setPassword self.mPassword)).mPassword
      = self.mPassword := rfl
  cases hres : (openArchive self.mLibrary self.mFormat in_buffer self.mPassword).result with
  | error e =>
    have h1 := extract_of_open_error self in_buffer out_dir e hres
    have h2 := extractToBuffer_of_open_error self in_buffer out_buffer index e hres
    rcases openArchive_trace_cases self.mLibrary self.mFormat in_buffer self.mPassword
      with ht | ht <;>
    simp [toDir, toBuf, h1, h2, ht, Event.openPassword, Event.extractPassword, hpw,
      BitMemExtractor.new]
  | ok a =>
    have h1 := extract_of_open_ok self in_buffer out_dir a hres
    have h2 := extractToBuffer_of_open_ok self in_buffer out_buffer index a hres
    have ht := openArchive_trace_ok self.mLibrary self.mFormat in_buffer self.mPassword a hres
    simp [toDir, toBuf, h1, h2, ht, Event.openPassword, Event.extractPassword, hpw, hpe, hpm,
      BitMemExtractor.new]

/-- Witness for C9: a freshly constructed extractor on an engine that opens the
buffer hands the empty password to `Open` and to `Extract`. -/
theorem handlers_carry_configured_password_witness :
    ((BitMemExtractor.new (fixedLibrary S_OK S_OK (.ui8 3) [1, 2, 3] "") { guid := 7 }).extract
        [80, 75] "out").trace.filterMap Event.openPassword = [""] ∧
    ((BitMemExtractor.new (fixedLibrary S_OK S_OK (.ui8 3) [1, 2, 3] "") { guid := 7 }).extract
        [80, 75] "out").trace.filterMap Event.extractPassword = [""] :=
  ⟨((handlers_carry_configured_password
      (BitMemExtractor.new (fixedLibrary S_OK S_OK (.ui8 3) [1, 2, 3] "") { guid := 7 })
      [80, 75] [] "out" 0).2.2.2.2.1 () rfl).1,
   ((handlers_carry_configured_password
      (BitMemExtractor.new (fixedLibrary S_OK S_OK (.ui8 3) [1, 2, 3] "") { guid := 7 })
      [80, 75] [] "out" 0).2.2.2.2.1 () rfl).2.1⟩

/-- C10: each overload of `BitMemExtractor::extract` calls `Extract` at most once,
always with the test flag false; the extract-to-directory overload passes no
index list and the count 2^32 - 1, the extract-to-buffer overload passes the
index list `[index]` with the count 1; when opening succeeds the call is made
exactly once. -/
theorem Extract_called_once_with_selection {σ : Type} (self : BitMemExtractor σ)
    (in_buffer out_buffer : List byte_t) (out_dir : String) (index : Nat) :
    let toDir := (self.extract in_buffer out_dir).trace
    let toBuf := (self.extractToBuffer in_buffer out_buffer index).1.trace
    (toDir.filter Event.isExtract).length ≤ 1 ∧
    (toDir.filterMap Event.extractArgs).length = (toDir.filter Event.isExtract).length ∧
    (∀ a ∈ toDir.filterMap Event.extractArgs, a = (none, 2 ^ 32 - 1, false)) ∧
    (toBuf.filter Event.isExtract).length ≤ 1 ∧
    (toBuf.filterMap Event.extractArgs).length = (toBuf.filter Event.isExtract).length ∧
    (∀ a ∈ toBuf.filterMap Event.extractArgs, a = (some [index], 1, false)) ∧
    (∀ inArchive,
      (openArchive self.mLibrary self.mFormat in_buffer self.mPassword).result = .ok inArchive →
        toDir.filterMap Event.extractArgs = [(none, 2 ^ 32 - 1, false)] ∧
        toBuf.filterMap Event.extractArgs = [(some [index], 1, false)]) := by
  intro toDir toBuf
  cases hres : (openArchive self.mLibrary self.mFormat in_buffer self.mPassword).result with
  | error e =>
    have h1 := extract_of_open_error self in_buffer out_dir e hres
    have h2 := extractToBuffer_of_open_error self in_buffer out_buffer index e hres
    rcases openArchive_trace_cases self.mLibrary self.mFormat in_buffer self.mPassword
      with ht | ht <;>
    simp [toDir, toBuf, h1, h2, ht, Event.isExtract, Event.extractArgs]
  | ok a =>
    have h1 := extract_of_open_ok self in_buffer out_dir a hres
    have h2 := extractToBuffer_of_open_ok self in_buffer out_buffer index a hres
    have ht := openArchive_trace_ok self.mLibrary self.mFormat in_buffer self.mPassword a hres
    simp [toDir, toBuf, h1, h2, ht, Event.isExtract, Event.extractArgs, toUInt32_neg_one]

/-- Witness for C10: on an engine that opens the buffer, extracting entry 4 to a
buffer calls `Extract` once, with the index list `[4]`, the count 1 and the test
flag false. -/
theorem Extract_called_once_with_selection_witness :
    ((fixedExtractor S_OK S_OK (.ui8 3) [1, 2, 3] "" "pw").extractToBuffer [80, 75] []
        4).1.trace.filterMap Event.extractArgs = [(some [4], 1, false)] :=
  ((Extract_called_once_with_selection (fixedExtractor S_OK S_OK (.ui8 3) [1, 2, 3] "" "pw")
      [80, 75] [] "out" 4).2.2.2.2.2.2 () rfl).2

/-! ## The facade and the error count of the handler -/

/-- C2, refuted as stated: with an engine that opens the buffer and whose
`Extract` returns `E_FAIL` without any per-entry report, the handler has the
error count zero when `Extract` returns, and the facade raises all the same. -/
theorem extract_raises_with_zero_error_count :
    ((fixedExtractor S_OK E_FAIL .empty [] "" "").extract [80, 75] "out").raises = true ∧
    ExtractCallback.mNumErrors
      ((fixedArchive S_OK E_FAIL .empty [] "").Extract () none (toUInt32 (-1)) false
        .extractCallback ((ExtractCallback.new "out").setPassword "")).2 = 0 ∧
    ¬ (((fixedExtractor S_OK E_FAIL .empty [] "" "").extract [80, 75] "out").raises = true ↔
      ExtractCallback.mNumErrors
        ((fixedArchive S_OK E_FAIL .empty [] "").Extract () none (toUInt32 (-1)) false
          .extractCallback ((ExtractCallback.new "out").setPassword "")).2 ≠ 0) := by
  have hr : ((fixedExtractor S_OK E_FAIL .empty [] "" "").extract [80, 75] "out").raises
      = true := rfl
  have hz : ExtractCallback.mNumErrors
      ((fixedArchive S_OK E_FAIL .empty [] "").Extract () none (toUInt32 (-1)) false
        .extractCallback ((ExtractCallback.new "out").setPassword "")).2 = 0 := rfl
  exact ⟨hr, hz, fun h => (h.mp hr) hz⟩

/-- C2, amended: when opening succeeds, `extract( in_buffer, out_dir )` raises
exactly when `Extract` returned a code other than `S_OK`; the error count of the
handler is not consulted, so the facade raises exactly when the count is nonzero
only for engine runs whose return code is `S_OK` precisely when the count is
zero. -/
theorem extract_raises_by_return_code_only {σ : Type} (self : BitMemExtractor σ)
    (in_buffer : List byte_t) (out_dir : String) (inArchive : σ)
    (hopen : (openArchive self.mLibrary self.mFormat in_buffer self.mPassword).result
      = .ok inArchive) :
    let toDir := self.mLibrary.archive.Extract inArchive none (toUInt32 (-1)) false
      .extractCallback ((ExtractCallback.new out_dir).setPassword self.mPassword)
    ((self.extract in_buffer out_dir).raises = true ↔ toDir.1 ≠ S_OK) ∧
    ((toDir.1 = S_OK ↔ ExtractCallback.mNumErrors toDir.2 = 0) →
      ((self.extract in_buffer out_dir).raises = true ↔
        ExtractCallback.mNumErrors toDir.2 ≠ 0)) := by
  intro toDir
  have key : (self.extract in_buffer out_dir).raises = true ↔ toDir.1 ≠ S_OK := by
    rw [extract_of_open_ok self in_buffer out_dir inArchive hopen]
    by_cases h : toDir.1 = S_OK
    · simp only [toDir] at h; simp [Run.raises, toDir, h]
    · simp only [toDir] at h; simp [Run.raises, toDir, h]
  exact ⟨key, fun hiff => key.trans (not_congr hiff)⟩

/-- Witness for C2 amended: an engine run that reports one failed entry to the
handler and returns `S_OK` leaves the error count 1, and the facade does not
raise. -/
theorem extract_raises_by_return_code_only_witness :
    (openArchive (reportingExtractor [⟨"a.txt", 3⟩]).mLibrary { guid := 7 } [80, 75] "").result
      = .ok () ∧
    ExtractCallback.mNumErrors
      ((reportingArchive [⟨"a.txt", 3⟩]).Extract () none (toUInt32 (-1)) false
        .extractCallback ((ExtractCallback.new "out").setPassword "")).2 = 1 ∧
    ((reportingExtractor [⟨"a.txt", 3⟩]).extract [80, 75] "out").raises ≠ true :=
  ⟨rfl, rfl, fun h =>
    ((extract_raises_by_return_code_only (reportingExtractor [⟨"a.txt", 3⟩]) [80, 75] "out" ()
      rfl).1.mp h) rfl⟩

/-! ## Extraction of one entry to a buffer -/

/-- C8, refuted as stated: with an engine that records the size 5 for entry 0,
writes three bytes through the handler and returns `S_OK`, the call returns
without raising and `out_buffer` has length 3, not 5. -/
theorem extractToBuffer_length_differs_from_recorded_size :
    ((fixedExtractor S_OK S_OK (.ui8 5) [1, 2, 3] "" "").extractToBuffer [80, 75] [] 0).1.result
      = .ok () ∧
    ((fixedArchive S_OK S_OK (.ui8 5) [1, 2, 3] "").GetProperty () 0 .kpidSize).2 = .ui8 5 ∧
    ((fixedExtractor S_OK S_OK (.ui8 5) [1, 2, 3] "" "").extractToBuffer [80, 75] [] 0).2.length
      = 3 ∧
    ((fixedExtractor S_OK S_OK (.ui8 5) [1, 2, 3] "" "").extractToBuffer [80, 75] [] 0).2.length
      ≠ 5 := by
  refine ⟨rfl, rfl, rfl, by decide⟩

/-- C8, amended: when opening succeeds, `out_buffer` after
`extract( in_buffer, out_buffer, index )` is the buffer of the in-memory handler
as the `Extract` run of the engine left it; so its length is the recorded size
of the entry whenever the engine wrote that many bytes; the size property read
before the call has no influence on the outcome. -/
theorem extractToBuffer_buffer_is_what_engine_wrote {σ : Type} (self : BitMemExtractor σ)
    (in_buffer out_buffer : List byte_t) (index : Nat) (inArchive : σ)
    (hopen : (openArchive self.mLibrary self.mFormat in_buffer self.mPassword).result
      = .ok inArchive) :
    let toBuf := self.mLibrary.archive.Extract inArchive (some [index]) 1 false
      .memExtractCallback ((MemExtractCallback.new out_buffer).setPassword self.mPassword)
    (self.extractToBuffer in_buffer out_buffer index).2 = MemExtractCallback.mBuffer toBuf.2 ∧
    (∀ size, (self.mLibrary.archive.GetProperty inArchive index .kpidSize).2 = .ui8 size →
      (MemExtractCallback.mBuffer toBuf.2).length = size →
      (self.extractToBuffer in_buffer out_buffer index).2.length = size) ∧
    (∀ g : σ → Nat → PROPID → HRESULT × PROPVARIANT,
      BitMemExtractor.extractToBuffer
        { self with mLibrary :=
          { self.mLibrary with archive := { self.mLibrary.archive with GetProperty := g } } }
        in_buffer out_buffer index
      = self.extractToBuffer in_buffer out_buffer index) := by
  intro toBuf
  have hb : (self.extractToBuffer in_buffer out_buffer index).2
      = MemExtractCallback.mBuffer toBuf.2 := by
    rw [extractToBuffer_of_open_ok self in_buffer out_buffer index inArchive hopen]
  refine ⟨hb, ?_, ?_⟩
  · intro size _ hlen
    rw [hb, hlen]
  · intro g
    rfl

/-- Witness for C8 amended: with an engine that writes the three bytes 1, 2, 3
through the handler, `out_buffer` is exactly these bytes afterwards. -/
theorem extractToBuffer_buffer_is_what_engine_wrote_witness :
    ((fixedExtractor S_OK S_OK (.ui8 3) [1, 2, 3] "" "").extractToBuffer [80, 75] [] 0).2
      = [1, 2, 3] :=
  (extractToBuffer_buffer_is_what_engine_wrote (fixedExtractor S_OK S_OK (.ui8 3) [1, 2, 3] "" "")
    [80, 75] [] 0 () rfl).1

/-! ## Result reports of the extract protocol -/

theorem SetOperationResult_returns_ok (cb : ExtractCallback) (code : Int) :
    (cb.SetOperationResult code).1 = S_OK := by
  unfold ExtractCallback.SetOperationResult
  split <;> rfl

theorem failedReports_cons (r : EntryReport) (rest : List EntryReport) :
    failedReports (r :: rest) =
      if r.code = kOK then failedReports rest else r :: failedReports rest := by
  unfold failedReports
  by_cases h : r.code = kOK <;> simp [List.filter_cons, h]

theorem deliverReports_accumulates (reports : List EntryReport) :
    ∀ cb : ExtractCallback, cb.mNumErrors + (failedReports reports).length < 2 ^ 64 →
      (deliverReports cb reports).1 = S_OK ∧
      (deliverReports cb reports).2.1.mNumErrors
        = cb.mNumErrors + (failedReports reports).length ∧
      (deliverReports cb reports).2.1.mFailures
        = cb.mFailures ++ (failedReports reports).map (fun r => (r.path, r.code)) ∧
      (deliverReports cb reports).2.2 = reports.length := by
  induction reports with
  | nil => intro cb _; simp [deliverReports, failedReports]
  | cons r rest ih =>
    intro cb hb
    rw [failedReports_cons] at hb ⊢
    have hok := SetOperationResult_returns_ok (cb.GetStream r.path) r.code
    by_cases hc : r.code = kOK
    · simp only [hc, if_true] at hb ⊢
      have hstep : ((cb.GetStream r.path).SetOperationResult kOK).2.mNumErrors = cb.mNumErrors ∧
          ((cb.GetStream r.path).SetOperationResult kOK).2.mFailures = cb.mFailures := by
        simp [ExtractCallback.SetOperationResult, ExtractCallback.GetStream]
      have h := ih ((cb.GetStream r.path).SetOperationResult kOK).2 (by rw [hstep.1]; exact hb)
      rw [hc] at hok
      simp only [deliverReports, hc, hok, ne_eq, not_true_eq_false, if_false]
      rw [h.1, h.2.1, h.2.2.1, h.2.2.2, hstep.1, hstep.2]
      simp
    · simp only [hc, if_false, List.length_cons] at hb ⊢
      have hlt : cb.mNumErrors + 1 < 2 ^ 64 := by omega
      have hstep : ((cb.GetStream r.path).SetOperationResult r.code).2.mNumErrors
            = cb.mNumErrors + 1 ∧
          ((cb.GetStream r.path).SetOperationResult r.code).2.mFailures
            = cb.mFailures ++ [(r.path, r.code)] := by
        have hmod : (cb.mNumErrors + 1) % 2 ^ 64 = cb.mNumErrors + 1 := Nat.mod_eq_of_lt hlt
        simp only [ExtractCallback.SetOperationResult, ExtractCallback.GetStream, hc, if_false,
          hmod, and_self]
      have h := ih ((cb.GetStream r.path).SetOperationResult r.code).2
        (by rw [hstep.1]; omega)
      simp only [deliverReports, hok, ne_eq, not_true_eq_false, if_false]
      rw [h.1, h.2.1, h.2.2.1, h.2.2.2, hstep.1, hstep.2]
      simp
      omega

/-- C4: for every sequence of per-entry result reports delivered to an extract
handler that starts with no recorded failure (fewer than 2^64 of the reports
being failures, the range of the counter), afterwards the error count is the
number of reports with a non-success code, the failure list holds exactly one
record (path and code) per such report, in the order reported; the handler
received every report and the run ended with `S_OK`, since `SetOperationResult`
never returns a failure itself. -/
theorem reports_counted_and_listed_in_order (cb : ExtractCallback)
    (reports : List EntryReport)
    (hcount : cb.mNumErrors = 0) (hlist : cb.mFailures = [])
    (hrange : (failedReports reports).length < 2 ^ 64) :
    (deliverReports cb reports).2.1.mNumErrors = (failedReports reports).length ∧
    (deliverReports cb reports).2.1.mFailures
      = (failedReports reports).map (fun r => (r.path, r.code)) ∧
    (deliverReports cb reports).2.2 = reports.length ∧
    (deliverReports cb reports).1 = S_OK ∧
    (∀ (h : ExtractCallback) (code : Int), (h.SetOperationResult code).1 = S_OK) := by
  have h := deliverReports_accumulates reports cb (by rw [hcount]; simpa using hrange)
  refine ⟨?_, ?_, h.2.2.2, h.1, SetOperationResult_returns_ok⟩
  · rw [h.2.1, hcount]; simp
  · rw [h.2.2.1, hlist]; simp

/-- Witness for C4: four reports, the second and the fourth failing, delivered
to a freshly constructed handler. -/
theorem reports_counted_and_listed_in_order_witness :
    (deliverReports (ExtractCallback.new "out")
      [⟨"a", 0⟩, ⟨"b", 2⟩, ⟨"c", 0⟩, ⟨"d", 3⟩]).2.1.mNumErrors = 2 ∧
    (deliverReports (ExtractCallback.new "out")
      [⟨"a", 0⟩, ⟨"b", 2⟩, ⟨"c", 0⟩, ⟨"d", 3⟩]).2.1.mFailures = [("b", 2), ("d", 3)] ∧
    (deliverReports (ExtractCallback.new "out")
      [⟨"a", 0⟩, ⟨"b", 2⟩, ⟨"c", 0⟩, ⟨"d", 3⟩]).2.2 = 4 :=
  have h := reports_counted_and_listed_in_order (ExtractCallback.new "out")
    [⟨"a", 0⟩, ⟨"b", 2⟩, ⟨"c", 0⟩, ⟨"d", 3⟩] rfl rfl (by decide)
  ⟨h.1, h.2.1, h.2.2.1⟩

/-! ## Volume sizes -/

/-- C5: for every configured volume-size sequence and every volume index `k`,
`GetVolumeSize` reports no size when the sequence is empty, the element at `k`
when `k` is below the length, and the last element (the one at length - 1) when
the sequence is non-empty and `k` is at or beyond the length; the handler, and
with it the sequence, is unchanged by the query. -/
theorem GetVolumeSize_indexes_or_repeats_last (cb : UpdateCallback) (k : Nat) :
    (cb.mVolumesSizes = [] → (cb.GetVolumeSize k).1 = none) ∧
    (∀ h : k < cb.mVolumesSizes.length, (cb.GetVolumeSize k).1 = some cb.mVolumesSizes[k]) ∧
    (∀ h : cb.mVolumesSizes ≠ [], cb.mVolumesSizes.length ≤ k →
      (cb.GetVolumeSize k).1 = some (cb.mVolumesSizes.getLast h) ∧
      (cb.GetVolumeSize k).1 = cb.mVolumesSizes[cb.mVolumesSizes.length - 1]?) ∧
    (cb.GetVolumeSize k).2 = cb ∧
    (cb.GetVolumeSize k).2.mVolumesSizes = cb.mVolumesSizes := by
  refine ⟨?_, ?_, ?_, ?_, ?_⟩
  · intro h
    simp [UpdateCallback.GetVolumeSize, h]
  · intro h
    simp [UpdateCallback.GetVolumeSize, List.head?_drop, List.getElem?_eq_getElem h]
  · intro h hk
    have hd : cb.mVolumesSizes.drop k = [] := List.drop_eq_nil_of_le hk
    have hl : cb.mVolumesSizes.getLast? = some (cb.mVolumesSizes.getLast h) :=
      List.getLast?_eq_getLast _ h
    constructor
    · simp [UpdateCallback.GetVolumeSize, hd, hl]
    · simp [UpdateCallback.GetVolumeSize, hd, List.getLast?_eq_getElem?]
  · unfold UpdateCallback.GetVolumeSize
    split <;> rfl
  · unfold UpdateCallback.GetVolumeSize
    split <;> rfl

/-- Witness for C5: with the sizes 10, 20, 30 the handler reports 20 for volume 1
and 30 for volume 7. -/
theorem GetVolumeSize_indexes_or_repeats_last_witness :
    ((UpdateCallback.withVolumes [10, 20, 30]).GetVolumeSize 1).1 = some 20 ∧
    ((UpdateCallback.withVolumes [10, 20, 30]).GetVolumeSize 7).1 = some 30 :=
  ⟨(GetVolumeSize_indexes_or_repeats_last (UpdateCallback.withVolumes [10, 20, 30]) 1).2.1
      (by decide),
   ((GetVolumeSize_indexes_or_repeats_last (UpdateCallback.withVolumes [10, 20, 30]) 7).2.2.1
      (by decide) (by decide)).1⟩

theorem GetVolumeSize_mem (cb : UpdateCallback) (k size : Nat)
    (h : (cb.GetVolumeSize k).1 = some size) : size ∈ cb.mVolumesSizes := by
  unfold UpdateCallback.GetVolumeSize at h
  split at h
  · next s hs =>
    simp only [Option.some.injEq] at h
    subst h
    exact List.mem_of_mem_drop (List.mem_of_mem_head? hs)
  · simp only at h
    exact List.mem_of_getLast?_eq_some h

/-- Splitting writes every byte when all configured sizes are positive: the
volume sizes add up to the total. -/
theorem splitVolumes_sum (cb : UpdateCallback) (hpos : ∀ size ∈ cb.mVolumesSizes, 0 < size) :
    ∀ fuel index remaining, remaining ≤ fuel →
      (splitVolumes cb fuel index remaining).sum = remaining := by
  intro fuel
  induction fuel with
  | zero => intro index remaining h; simp [splitVolumes, Nat.le_zero.mp h]
  | succ n ih =>
    intro index remaining h
    unfold splitVolumes
    by_cases h0 : remaining = 0
    · simp [h0]
    · simp only [h0, if_false]
      cases hg : (cb.GetVolumeSize index).1 with
      | none => simp
      | some size =>
        have hs : 0 < size := hpos size (GetVolumeSize_mem cb index size hg)
        have hle : remaining - min size remaining ≤ n := by omega
        simp only [List.sum_cons, ih (index + 1) (remaining - min size remaining) hle]
        omega

end bit7z
